import Mathlib

/-!
Verification of the `aiobufpro` per-connection protocol core against its
natural-language specification.

The development shallowly embeds the Python source:

 - byte strings (`bytes` / `bytearray`) and decoded ASCII strings become
   `List Nat` of byte / code-point values;
 - stateful classes become structures with explicit state passing;
 - fallible code returns `Except PyErr _`, where `PyErr` distinguishes the
   named error design (`WebSocketError` carrying an RFC close code) from
   ordinary unnamed Python exceptions (`ValueError`, `TypeError`,
   `AttributeError`, ...).

All definitions are executable; theorems about concrete inputs evaluate.
-/

namespace Aiobufpro

/-- Byte values of an ASCII string literal, used to transcribe the byte-string
literals of the source. -/
def bs (s : String) : List Nat := s.toList.map Char.toNat

/-- Python exceptions raised by the modelled code. `wsError` is the named
`WebSocketError(code, message)` of the error-handling design; every other
constructor is an ordinary unnamed Python exception. -/
inductive PyErr where
  | valueError (msg : String)
  | typeError (msg : String)
  | attributeError (msg : String)
  | unboundLocalError (msg : String)
  | indexError (msg : String)
  | unicodeDecodeError (msg : String)
  | assertionError (msg : String)
  | exception (msg : String)
  | wsError (code : Nat) (msg : String)
deriving DecidableEq, Repr

/-- ASCII lowercasing of one byte, as `bytes.lower` does per element. -/
def lowerByte (c : Nat) : Nat := if 65 ≤ c ∧ c ≤ 90 then c + 32 else c

/-- Models `bytes.lower()` / `str.lower()` on ASCII data. -/
def pyLower (l : List Nat) : List Nat := l.map lowerByte

/-- The ASCII whitespace set stripped by `bytes.strip()` and `str.strip()`:
space, tab, newline, carriage return, vertical tab, form feed. -/
def pyWhitespace (c : Nat) : Bool :=
  c = 32 || c = 9 || c = 10 || c = 13 || c = 11 || c = 12

/-- Models `strip()` with no argument: drop leading and trailing ASCII
whitespace. -/
def pyStrip (l : List Nat) : List Nat :=
  ((l.dropWhile pyWhitespace).reverse.dropWhile pyWhitespace).reverse

/-- Models `s.split(sep)` for a single-character separator: split at every
occurrence, preserving empty fields (so `"a  b".split(" ") = ["a", "", "b"]`). -/
def pySplitOn (sep : Nat) (l : List Nat) : List (List Nat) :=
  match l with
  | [] => [[]]
  | c :: rest =>
    match pySplitOn sep rest with
    | [] => [[]]
    | g :: gs => if c = sep then [] :: g :: gs else (c :: g) :: gs

/-- Models the Python `in` test on byte strings: `pyContains n h` is true iff
`n` occurs as a contiguous run inside `h` (an empty `n` always occurs). -/
def pyContains (needle : List Nat) (hay : List Nat) : Bool :=
  match hay with
  | [] => needle.isEmpty
  | _ :: rest => needle.isPrefixOf hay || pyContains needle rest

/-- Split a list at the first occurrence of `sep`: the part before it, and,
when `sep` occurs at all, the part after it. -/
def splitFirst (sep : Nat) (l : List Nat) : List Nat × Option (List Nat) :=
  let pre := l.takeWhile (fun c => c ≠ sep)
  if pre.length = l.length then (l, none) else (pre, some (l.drop (pre.length + 1)))

/-- Models the `path` and `query` components of `urllib.parse.urlparse` as it
applies to the origin-form request targets sent on an HTTP request line (no
scheme and no authority component): any fragment after the first `#` is
discarded, and the first `?` of the remainder separates the path from the
query string. -/
def urlparse_path_query (target : List Nat) : List Nat × List Nat :=
  let defrag := (splitFirst 35 target).1
  match splitFirst 63 defrag with
  | (p, none) => (p, [])
  | (p, some q) => (p, q)

/-! ## `aiobufpro/parsers/http.py` — the incremental HTTP header parser -/

/-- `HTTPParserState` from the source: current state of the HTTP parser. -/
inductive HTTPParserState where
  | PARSING_REQUEST
  | PARSING_HEADERS
  | PARSING_COMPLETE
deriving DecidableEq, Repr

/-- The `HTTPParser` instance attributes, exactly the fields assigned in
`HTTPParser.__init__`. Decoded strings (`http_method`, `http_version`, `path`,
`query_string`) are kept as their code-point lists; attributes initialised to
`None` become `Option`. -/
structure HTTPParser where
  state : HTTPParserState
  http_method : Option (List Nat)
  http_version : Option (List Nat)
  path : Option (List Nat)
  query_string : Option (List Nat)
  headers : List (List Nat × List Nat)
  parsing_data : Option (List Nat)
  parsing_header : List Nat
  parsing_sep_pos : Option Nat
  next_sep_pos : Option Nat
  next_header : List Nat
  raw_headers : List Nat
  upgrade_header : Option (List Nat × List Nat)
  should_upgrade : Option Bool
deriving DecidableEq, Repr

/-- A fresh `HTTPParser()`: the initial attribute values of `__init__`. -/
def freshHTTPParser : HTTPParser where
  state := .PARSING_REQUEST
  http_method := none
  http_version := none
  path := none
  query_string := none
  headers := []
  parsing_data := none
  parsing_header := []
  parsing_sep_pos := none
  next_sep_pos := none
  next_header := []
  raw_headers := []
  upgrade_header := none
  should_upgrade := none

/-- The upgrade bookkeeping performed when a completed header `(name, value)`
is parsed in `HTTPParser.parse_headers`: while `should_upgrade` is still
`None`, the first header whose lowercased name is `b"connection"` assigns it
(`True` iff the lowercased value contains `b"upgrade"`); afterwards, if it is
`True` and `upgrade_header` is still `None`, a header whose lowercased name is
`b"upgrade"` is recorded as `upgrade_header`. -/
def update_upgrade_state (s : HTTPParser) (name value : List Nat) : HTTPParser :=
  match s.should_upgrade with
  | none =>
    if pyLower name = bs "connection" then
      if pyContains (bs "upgrade") (pyLower value) then
        { s with should_upgrade := some true }
      else
        { s with should_upgrade := some false }
    else s
  | some u =>
    if u ∧ s.upgrade_header = none ∧ pyLower name = bs "upgrade" then
      { s with upgrade_header := some (name, value) }
    else s

/-- Finalising the pending `next_header` when a later line completes, as in
`HTTPParser.parse_headers`: the name is the bytes before the recorded
separator (`next_header[:next_sep_pos - 1]`, where `next_sep_pos` is one past
the colon), the value is `next_header[next_sep_pos + 1 : len - 2]` (skipping
the colon, one following byte, and the trailing CRLF). A header line without a
colon leaves `next_sep_pos` as `None`, and `None - 1` raises `TypeError`. -/
def process_next_header (s : HTTPParser) : Except PyErr HTTPParser :=
  if s.next_header = [] then .ok s
  else
    match s.next_sep_pos with
    | none => .error (.typeError "unsupported operand type NoneType minus int")
    | some sp =>
      let name := s.next_header.take (sp - 1)
      let value := (s.next_header.take (s.next_header.length - 2)).drop (sp + 1)
      let s1 := update_upgrade_state s name value
      .ok { s1 with headers := s1.headers ++ [(name, value)] }

/-- One iteration of the byte loop in `HTTPParser.parse_headers`, for current
byte `b` (byte values: `58` is a colon, `10` a newline, `32` a space).

A colon records `parsing_sep_pos` when none is recorded yet and the request
line is done. A newline outside `PARSING_HEADERS` terminates the request line,
which is ASCII-decoded, stripped, and must split on single spaces into exactly
three fields (method, target, version) — otherwise the tuple unpacking raises
`ValueError`; the target is decomposed by `urlparse`. A newline in
`PARSING_HEADERS` finalises the pending header, transitions to
`PARSING_COMPLETE` on a bare CRLF line, and stores the just-completed line as
the new pending header. Any other byte accumulates into `parsing_header`. -/
def parse_header_byte (s : HTTPParser) (b : Nat) : Except PyErr HTTPParser :=
  let ph := s.parsing_header ++ [b]
  let s1 :=
    if b = 58 ∧ s.parsing_sep_pos = none ∧ s.state ≠ HTTPParserState.PARSING_REQUEST then
      { s with parsing_sep_pos := some ph.length }
    else s
  if b = 10 then
    if s1.state ≠ HTTPParserState.PARSING_HEADERS then
      if ph.all (· < 128) then
        match pySplitOn 32 (pyStrip ph) with
        | [m, target, v] =>
          .ok { s1 with
                http_method := some m
                http_version := some v
                path := some (urlparse_path_query target).1
                query_string := some (urlparse_path_query target).2
                state := HTTPParserState.PARSING_HEADERS
                parsing_header := [] }
        | _ => .error (.valueError "request line does not split into three fields")
      else .error (.unicodeDecodeError "ascii codec cannot decode byte")
    else
      match process_next_header s1 with
      | .error e => .error e
      | .ok s2 =>
        let s3 :=
          if ph = [13, 10] then { s2 with state := HTTPParserState.PARSING_COMPLETE }
          else s2
        .ok { s3 with
              next_sep_pos := s3.parsing_sep_pos
              next_header := ph
              parsing_sep_pos := none
              parsing_header := [] }
  else .ok { s1 with parsing_header := ph }

/-- `HTTPParser.parse_headers(data)`: append `data` to `raw_headers`, prepend
any buffered `parsing_data`, and run the byte loop. The loop decrements its
`data_len` copy once per iteration, so `data_len` is `0` after the loop and
the trailing `self.parsing_data = data` store never executes; `parsing_data`
is therefore carried through unchanged (it starts as `None` and stays so). -/
def HTTPParser.parse_headers (s : HTTPParser) (data : List Nat) : Except PyErr HTTPParser :=
  let s0 := { s with raw_headers := s.raw_headers ++ data }
  let d := match s0.parsing_data with
    | none => data
    | some p => p ++ data
  d.foldlM parse_header_byte s0

/-- Feeding a sequence of byte chunks to the parser one `parse_headers` call
at a time. -/
def feed_all (s : HTTPParser) (chunks : List (List Nat)) : Except PyErr HTTPParser :=
  chunks.foldlM HTTPParser.parse_headers s

/-! ## `aiobufpro/parsers/websocket.py` — the WebSocket frame codec -/

/-- `f"{n:08b}"` for a byte value: the eight bits of `n`, most significant
first. The source formats bytes this way in `xor` and `get_frame_values`; the
formatted values are always `bytearray` elements, hence below 256, where the
width-8 zero-padded binary format is exactly these eight digits. -/
def bitstr8 (n : Nat) : List Nat :=
  (List.range 8).map fun x => n / 2 ^ (7 - x) % 2

/-- `int(bitstring, 2)`: reassemble a most-significant-first binary digit
list into a number. -/
def intOfBits (l : List Nat) : Nat :=
  l.foldl (fun acc d => acc * 2 + d) 0

/-- The source `xor` helper: format both bytes as 8-character bitstrings,
compare the bits pairwise with the "one or the other, but not both" test
`int(bit_one) + int(bit_two) == 1`, and read the resulting bitstring back as
an integer. -/
def xor (bytes_one : Nat) (bytes_two : Nat) : Nat :=
  let bitstr_one := bitstr8 bytes_one
  let bitstr_two := bitstr8 bytes_two
  let result_bitstr := (List.range 8).map fun x =>
    if bitstr_one.getD x 0 + bitstr_two.getD x 0 = 1 then 1 else 0
  intOfBits result_bitstr

/-- `WebSocketOpcode` from the source: the five member values of the enum. -/
inductive WebSocketOpcode where
  | TEXT
  | BINARY
  | CLOSE
  | PING
  | PONG
deriving DecidableEq, Repr

/-- The integer value of each `WebSocketOpcode` member. -/
def WebSocketOpcode.value : WebSocketOpcode → Nat
  | .TEXT => 1
  | .BINARY => 2
  | .CLOSE => 8
  | .PING => 9
  | .PONG => 10

/-- The enum call `WebSocketOpcode(n)`: the member with value `n`, when one
exists; Python raises `ValueError` otherwise. -/
def WebSocketOpcode.ofNat? (n : Nat) : Option WebSocketOpcode :=
  if n = 1 then some .TEXT
  else if n = 2 then some .BINARY
  else if n = 8 then some .CLOSE
  else if n = 9 then some .PING
  else if n = 10 then some .PONG
  else none

/-- The unmasking comprehension of `WebSocketParser.parse_frame`:
`bytes([xor(data[i], masking_key[i % 4]) for i in range(payload_len)])`. -/
def unmask_payload (data : List Nat) (masking_key : List Nat) (payload_len : Nat) : List Nat :=
  (List.range payload_len).map fun i => xor (data.getD i 0) (masking_key.getD (i % 4) 0)

/-- The observable outcome of one `parse_frame` call that does not raise. -/
inductive ParseFrameEffect where
  | incomplete
  | receive_text (payload : List Nat)
  | control_ignored
deriving DecidableEq, Repr

/-- One `WebSocketParser.parse_frame(data)` call on a freshly created parser
(state `INITIAL_BYTES`), for a `bytearray` `data` holding the bytes received
so far. Transcribed branch by branch from the source:

 - fewer than 2 bytes: nothing parsed yet (`incomplete`);
 - the first byte yields FIN/RSV/opcode via `get_frame_values`; the opcode
   nibble goes through `WebSocketOpcode(opcode)`, which raises `ValueError`
   for values outside {1, 2, 8, 9, 10};
 - fragmented or oversized control frames and a missing mask bit raise the
   named `WebSocketError(PROTOCOL_ERROR, ...)`;
 - a 7-bit length of 126/127 enters the `PAYLOAD_LENGTH` branch, which slices
   2 or 8 bytes and formats them with `f"{payload_len_data:08b}"`; the slice
   of a `bytearray` is a `bytearray`, and formatting one with `"08b"` raises
   `TypeError` (`unsupported format string passed to bytearray.__format__`),
   so the branch never decodes a length (with too few bytes buffered,
   `payload_len_bytes` is never assigned and the slice raises
   `UnboundLocalError` instead);
 - with the 4 masking-key bytes present, the payload is unmasked; the
   comprehension indexes `data[i]` for `i < payload_len` and raises
   `IndexError` when fewer payload bytes than `payload_len` are buffered;
 - a Text frame delivers a `websocket.receive` message whose text is the
   latin-1 decoding of the payload (byte-for-byte); a Binary frame evaluates
   `WebSocketOpcode.BYTES`, an attribute the enum does not define, raising
   `AttributeError`;
 - a Ping frame calls `self.get_frame_content(...)` without awaiting it and
   passes the resulting coroutine object to `feed_data`, whose
   `len(content)` raises `TypeError`;
 - Close and Pong frames are consumed with no action. -/
def WebSocketParser.parse_frame (data : List Nat) : Except PyErr ParseFrameEffect :=
  if data.length ≥ 2 then
    let bytes_one := data.getD 0 0
    let bytes_two := data.getD 1 0
    let data := data.drop 2
    let fin := (bitstr8 bytes_one).getD 0 0
    let opcode_val := intOfBits ((bitstr8 bytes_one).drop 4)
    match WebSocketOpcode.ofNat? opcode_val with
    | none => .error (.valueError "is not a valid WebSocketOpcode")
    | some opcode =>
      let mask := (bitstr8 bytes_two).getD 0 0
      let payload_len := intOfBits ((bitstr8 bytes_two).drop 1)
      if 7 < opcode_val ∧ fin = 0 then
        .error (.wsError 1002 "Control frame is fragmented.")
      else if 7 < opcode_val ∧ 125 < payload_len then
        .error (.wsError 1002 "Control frame payload greater than 125 bytes.")
      else if mask ≠ 1 then
        .error (.wsError 1002 "Frame mask missing.")
      else if payload_len ≤ 125 then
        -- state `MASKING_KEY`
        if 4 ≤ data.length then
          let masking_key := data.take 4
          let data := data.drop 4
          if data.length < payload_len then
            .error (.indexError "bytearray index out of range")
          else
            let payload_data := unmask_payload data masking_key payload_len
            if opcode_val ≤ 7 then
              if opcode = .TEXT then .ok (.receive_text payload_data)
              else .error (.attributeError "type object WebSocketOpcode has no attribute BYTES")
            else if opcode = .PING then
              .error (.typeError "object of type coroutine has no len()")
            else .ok .control_ignored
        else .ok .incomplete
      else
        -- state `PAYLOAD_LENGTH`
        if payload_len < 127 ∧ 2 ≤ data.length then
          .error (.typeError "unsupported format string passed to bytearray.__format__")
        else if 8 ≤ data.length then
          .error (.typeError "unsupported format string passed to bytearray.__format__")
        else .error (.unboundLocalError "payload_len_bytes referenced before assignment")
  else .ok .incomplete

/-- `WebSocketParser.get_frame_content(payload_data, opcode=..., fin=1,
rsv1=0, rsv2=0, rsv3=0)`, the frame encoder. The source formats the opcode
with `f"{opcode.value:04}"` — width-4 zero-padded DECIMAL, not binary — glues
`f"{fin}{rsv1}{rsv2}{rsv3}{opcode}"`, and parses that with `int(..., 2)`,
which raises `ValueError` whenever a decimal digit other than 0/1 appears
(opcode values 2, 8 and 9). The header is then packed as
`bytes([header, payload_len]) + payload_data`, which raises `ValueError` when
`payload_len` exceeds 255 and never uses the RFC 6455 extended length
encodings. A `str` payload is UTF-8 encoded first; this model takes the byte
list. -/
def WebSocketParser.get_frame_content (payload_data : List Nat) (opcode : WebSocketOpcode)
    (fin : Nat := 1) (rsv1 : Nat := 0) (rsv2 : Nat := 0) (rsv3 : Nat := 0) :
    Except PyErr (List Nat) :=
  let payload_len := payload_data.length
  let opcode_digits := [opcode.value / 1000 % 10, opcode.value / 100 % 10,
                        opcode.value / 10 % 10, opcode.value % 10]
  let header_digits := [fin, rsv1, rsv2, rsv3] ++ opcode_digits
  if header_digits.all (· < 2) then
    let header := intOfBits header_digits
    if header ≤ 255 ∧ payload_len ≤ 255 then
      .ok ([header, payload_len] ++ payload_data)
    else .error (.valueError "bytes must be in range 0 to 255")
  else .error (.valueError "invalid literal for int with base 2")

/-! ## `aiobufpro/utils.py` — handshake and response header helpers

The source delegates to the Python standard library for SHA-1
(`hashlib.sha1`) and base64 (`base64.b64encode`); those are modelled here by
their standard algorithms (RFC 3174 and RFC 4648), executable over byte
lists. -/

/-- Left-rotate a 32-bit word by `n` positions (`0 < n < 32`); the shifted-out
high bits wrap around into the low bits. -/
def rotl32 (n : Nat) (x : Nat) : Nat :=
  (x * 2 ^ n + x / 2 ^ (32 - n)) % 2 ^ 32

/-- The running SHA-1 state of five 32-bit words. -/
structure SHA1State where
  h0 : Nat
  h1 : Nat
  h2 : Nat
  h3 : Nat
  h4 : Nat
deriving DecidableEq, Repr

/-- The SHA-1 initialisation vector. -/
def sha1_init : SHA1State :=
  ⟨0x67452301, 0xEFCDAB89, 0x98BADCFE, 0x10325476, 0xC3D2E1F0⟩

/-- The SHA-1 round function: choose, parity, majority, parity. -/
def sha1_f (t b c d : Nat) : Nat :=
  if t < 20 then (b &&& c) ||| ((b ^^^ 0xFFFFFFFF) &&& d)
  else if t < 40 then b ^^^ c ^^^ d
  else if t < 60 then (b &&& c) ||| (b &&& d) ||| (c &&& d)
  else b ^^^ c ^^^ d

/-- The SHA-1 round constants. -/
def sha1_k (t : Nat) : Nat :=
  if t < 20 then 0x5A827999
  else if t < 40 then 0x6ED9EBA1
  else if t < 60 then 0x8F1BBCDC
  else 0xCA62C1D6

/-- Expand one 64-byte block into the 80-word SHA-1 message schedule. -/
def sha1_schedule (block : List Nat) : List Nat :=
  let w0 := (List.range 16).map fun i =>
    block.getD (4 * i) 0 * 16777216 + block.getD (4 * i + 1) 0 * 65536 +
    block.getD (4 * i + 2) 0 * 256 + block.getD (4 * i + 3) 0
  (List.range 64).foldl
    (fun w _ => w ++ [rotl32 1 (w.getD (w.length - 3) 0 ^^^ w.getD (w.length - 8) 0 ^^^
                                w.getD (w.length - 14) 0 ^^^ w.getD (w.length - 16) 0)])
    w0

/-- The SHA-1 compression function applied to one 64-byte block. -/
def sha1_compress (s : SHA1State) (block : List Nat) : SHA1State :=
  let w := sha1_schedule block
  let r := (List.range 80).foldl
    (fun (st : Nat × Nat × Nat × Nat × Nat) t =>
      let a := st.1
      let b := st.2.1
      let c := st.2.2.1
      let d := st.2.2.2.1
      let e := st.2.2.2.2
      let tmp := (rotl32 5 a + sha1_f t b c d + e + sha1_k t + w.getD t 0) % 2 ^ 32
      (tmp, a, rotl32 30 b, c, d))
    (s.h0, s.h1, s.h2, s.h3, s.h4)
  ⟨(s.h0 + r.1) % 2 ^ 32, (s.h1 + r.2.1) % 2 ^ 32, (s.h2 + r.2.2.1) % 2 ^ 32,
   (s.h3 + r.2.2.2.1) % 2 ^ 32, (s.h4 + r.2.2.2.2) % 2 ^ 32⟩

/-- SHA-1 padding: a `0x80` byte, zero bytes up to 56 mod 64, then the bit
length as an 8-byte big-endian integer. -/
def sha1_pad (msg : List Nat) : List Nat :=
  let len_bits := 8 * msg.length
  let pad_zeros := (119 - msg.length % 64) % 64
  msg ++ [128] ++ List.replicate pad_zeros 0 ++
    ((List.range 8).map fun i => len_bits / 2 ^ (8 * (7 - i)) % 256)

/-- Cut a byte list into 64-byte blocks; the fuel argument bounds the
recursion and is instantiated with the list length, which always suffices. -/
def chunks64Aux : Nat → List Nat → List (List Nat)
  | 0, _ => []
  | _, [] => []
  | fuel + 1, l => l.take 64 :: chunks64Aux fuel (l.drop 64)

/-- Cut a (padded) byte list into its 64-byte blocks. -/
def chunks64 (l : List Nat) : List (List Nat) :=
  chunks64Aux l.length l

/-- Big-endian bytes of one 32-bit word. -/
def word_be_bytes (x : Nat) : List Nat :=
  [x / 16777216 % 256, x / 65536 % 256, x / 256 % 256, x % 256]

/-- Models `hashlib.sha1(msg).digest()`: the 20-byte SHA-1 digest. -/
def sha1 (msg : List Nat) : List Nat :=
  let s := (chunks64 (sha1_pad msg)).foldl sha1_compress sha1_init
  word_be_bytes s.h0 ++ word_be_bytes s.h1 ++ word_be_bytes s.h2 ++
    word_be_bytes s.h3 ++ word_be_bytes s.h4

/-- The base64 alphabet of RFC 4648 as byte values. -/
def base64_alphabet : List Nat :=
  bs "ABCDEFGHIJKLMNOPQRSTUVWXYZabcdefghijklmnopqrstuvwxyz0123456789+/"

/-- One base64 alphabet byte. -/
def b64chr (i : Nat) : Nat := base64_alphabet.getD i 0

/-- Models `base64.b64encode`: encode three input bytes into four alphabet
bytes, padding a final group of one or two bytes with `=`. -/
def b64encode : List Nat → List Nat
  | [] => []
  | [a] => [b64chr (a / 4), b64chr (a % 4 * 16)] ++ bs "=="
  | [a, b] => [b64chr (a / 4), b64chr (a % 4 * 16 + b / 16), b64chr (b % 16 * 4)] ++ bs "="
  | a :: b :: c :: rest =>
    [b64chr (a / 4), b64chr (a % 4 * 16 + b / 16), b64chr (b % 16 * 4 + c / 64),
     b64chr (c % 64)] ++ b64encode rest

/-- `WEBSOCKET_ACCEPT_GUID` from the source. -/
def WEBSOCKET_ACCEPT_GUID : List Nat := bs "258EAFA5-E914-47DA-95CA-C5AB0DC85B11"

/-- `get_websocket_accept_key(sec_websocket_key)` from the source: strip the
header value of leading and trailing whitespace, append the fixed GUID, hash
with SHA-1 and base64-encode the 20-byte digest. -/
def get_websocket_accept_key (sec_websocket_key : List Nat) : List Nat :=
  let header_key := pyStrip sec_websocket_key
  let accept_key := header_key ++ WEBSOCKET_ACCEPT_GUID
  b64encode (sha1 accept_key)

/-- `HTTP_SERVER_NAME` from the source. -/
def HTTP_SERVER_NAME : List Nat := bs "server: aiobufpro\r\n"

/-- The decimal digits of `n`, as `str(n)` renders them. -/
def decimal_digits (n : Nat) : List Nat := (Nat.toDigits 10 n).map Char.toNat

/-- The lowercase hexadecimal digits of `n`, as the `%x` format renders
them. -/
def hex_digits (n : Nat) : List Nat := (Nat.toDigits 16 n).map Char.toNat

/-- Models `http.HTTPStatus(status).phrase` for the status codes this server
emits, with the `ValueError` fallback to `b""` for codes outside the
registry (the source catches that and uses an empty phrase). -/
def http_status_phrase (status : Nat) : List Nat :=
  if status = 101 then bs "Switching Protocols"
  else if status = 200 then bs "OK"
  else if status = 403 then bs "Forbidden"
  else if status = 404 then bs "Not Found"
  else if status = 500 then bs "Internal Server Error"
  else []

/-- `get_server_headers(status)` from the source: the status line, the
`server:` header, and the `date:` header. The date bytes come from
`formatdate(time.time(), usegmt=True)`; the wall clock is not part of the
model, so the formatted date is a parameter. -/
def get_server_headers (date : List Nat) (status : Nat) : List (List Nat) :=
  [bs "HTTP/1.1 " ++ decimal_digits status ++ bs " " ++ http_status_phrase status ++ bs "\r\n",
   HTTP_SERVER_NAME,
   bs "date: " ++ date ++ bs "\r\n"]

/-! ## `aiobufpro/connections.py` — the HTTP side of the ASGI bridge -/

/-- `ASGIConnectionState` from the source. -/
inductive ASGIConnectionState where
  | REQUEST
  | RESPONSE
  | STREAMING
  | CLOSED
deriving DecidableEq, Repr

/-- Messages the connection enqueues for the application (`receive` side).
The model covers the HTTP connection message kinds. -/
inductive AppMessage where
  | http_request (body : List Nat)
  | http_disconnect
deriving DecidableEq, Repr

/-- Messages the application sends to the HTTP connection (`send` side). -/
inductive OutMessage where
  | response_start (status : Nat) (headers : List (List Nat × List Nat))
  | response_body (body : List Nat) (more_body : Bool)
deriving DecidableEq, Repr

/-- The `ASGIHTTPConnection` state together with the protocol fields it
drives: `content` and `content_length` are the instance attributes;
`app_queue` is the inbound `asyncio.Queue` as a list (front = next
`receive()`); `keep_alive` lives on the protocol; `transport_writes` records
each byte string the connection hands to `protocol.feed_data`, which the
protocol copies into its write buffer and sends on the transport. -/
structure ASGIHTTPConnection where
  state : ASGIConnectionState
  app_queue : List AppMessage
  content_length : Option Nat
  content : List (List Nat)
  keep_alive : Bool
  transport_writes : List (List Nat)
deriving DecidableEq, Repr

/-- `ASGIConnection.put_message`: drop the message when the connection state
is `CLOSED`, otherwise enqueue it with `put_nowait`. -/
def put_message (c : ASGIHTTPConnection) (m : AppMessage) : ASGIHTTPConnection :=
  if c.state = ASGIConnectionState.CLOSED then c
  else { c with app_queue := c.app_queue ++ [m] }

/-- The connection as `ASGIHTTPConnection.run_asgi` leaves it: fresh state
with the initial `http.request` message (empty body) already enqueued. -/
def initial_http_connection : ASGIHTTPConnection where
  state := .REQUEST
  app_queue := [.http_request []]
  content_length := none
  content := []
  keep_alive := true
  transport_writes := []

/-- `ASGIConnection.update_connection_state`: an `assert` refuses a
transition to the current state, then the state is assigned. -/
def update_connection_state (c : ASGIHTTPConnection) (new_state : ASGIConnectionState) :
    Except PyErr ASGIHTTPConnection :=
  if c.state = new_state then .error (.assertionError "Invalid ASGI connection state transition")
  else .ok { c with state := new_state }

/-- Models `int(header_value.decode())` for a plain decimal digit string; the
general `int` grammar also accepts signs and surounding whitespace, which the
modelled call sites never see. -/
def py_int_decimal (l : List Nat) : Except PyErr Nat :=
  if l ≠ [] ∧ l.all (fun c => 48 ≤ c ∧ c ≤ 57) then
    .ok (l.foldl (fun acc c => acc * 10 + (c - 48)) 0)
  else .error (.valueError "invalid literal for int with base 10")

/-- The per-header body of the loop in `on_http_response_start`: record a
`content-length` value, clear `keep_alive` on `connection: close`, and append
the header line to the response content in every case. -/
def response_start_header (c : ASGIHTTPConnection) (hv : List Nat × List Nat) :
    Except PyErr ASGIHTTPConnection := do
  let c ←
    if hv.1 = bs "content-length" then do
      let n ← py_int_decimal hv.2
      pure { c with content_length := some n }
    else if hv.1 = bs "connection" ∧ hv.2 = bs "close" then
      pure { c with keep_alive := false }
    else pure c
  pure { c with content := c.content ++ [hv.1 ++ bs ": " ++ hv.2 ++ bs "\r\n"] }

/-- `ASGIHTTPConnection.on_http_response_start(message)`: only legal in state
`REQUEST` (else a bare `Exception`); starts the response content with the
server headers, folds the application headers through
`response_start_header`, and transitions to `RESPONSE`. -/
def on_http_response_start (c : ASGIHTTPConnection) (date : List Nat) (status : Nat)
    (headers : List (List Nat × List Nat)) : Except PyErr ASGIHTTPConnection := do
  if c.state ≠ ASGIConnectionState.REQUEST then
    throw (.exception "Invalid http response start event: The response has already started.")
  else
    let c := { c with content := get_server_headers date status }
    let c ← headers.foldlM response_start_header c
    update_connection_state c .RESPONSE

/-- `ASGIHTTPConnection.on_http_response_body(message)`: in `RESPONSE` with
`more_body=False`, append either the computed `content-length` header — the
source formats the body length with `b"content-length: %x"`, i.e. lowercase
HEXADECIMAL — or a bare CRLF when a content-length was recorded, then the
body and a trailing CRLF, write everything, and close; with
`more_body=True`, switch to chunked transfer encoding and `STREAMING`; in
`STREAMING`, write one hex-length-prefixed chunk, and on the final chunk the
`0\r\n\r\n` terminator. Any other state raises a bare `Exception`. -/
def on_http_response_body (c : ASGIHTTPConnection) (body : List Nat) (more_body : Bool) :
    Except PyErr ASGIHTTPConnection := do
  if c.state ≠ ASGIConnectionState.RESPONSE ∧ c.state ≠ ASGIConnectionState.STREAMING then
    throw (.exception "Invalid http response body event: The response has not started.")
  else if c.state = ASGIConnectionState.RESPONSE then
    if more_body = false then
      let c := { c with content := c.content ++
        [match c.content_length with
         | none => bs "content-length: " ++ hex_digits body.length ++ bs "\r\n\r\n"
         | some _ => bs "\r\n"] }
      let c := { c with content := c.content ++ [body, bs "\r\n"] }
      let c := { c with transport_writes := c.transport_writes ++ [c.content.flatten] }
      update_connection_state c .CLOSED
    else
      let c := { c with content := c.content ++
        [bs "transfer-encoding: chunked\r\n\r\n", hex_digits body.length ++ bs "\r\n",
         body, bs "\r\n"] }
      let c := { c with transport_writes := c.transport_writes ++ [c.content.flatten] }
      update_connection_state c .STREAMING
  else
    let c := { c with transport_writes := c.transport_writes ++
      [(hex_digits body.length ++ bs "\r\n") ++ body ++ bs "\r\n"] }
    if more_body = false then
      let c := { c with transport_writes := c.transport_writes ++ [bs "0\r\n\r\n"] }
      update_connection_state c .CLOSED
    else pure c

/-- `ASGIHTTPConnection.on_connection_complete`: enqueue `http.disconnect`
via `put_message`, then `protocol.on_response_complete` resets the protocol
parser or closes the transport (protocol-side effects outside this record). -/
def on_connection_complete (c : ASGIHTTPConnection) : ASGIHTTPConnection :=
  put_message c .http_disconnect

/-- `ASGIConnection.send(message)`: dispatch on the message type to the
matching handler; afterwards, when the handler has moved the connection to
`CLOSED`, call `on_connection_complete`. -/
def ASGIConnection.send (c : ASGIHTTPConnection) (date : List Nat) (m : OutMessage) :
    Except PyErr ASGIHTTPConnection := do
  let c ← match m with
    | .response_start status headers => on_http_response_start c date status headers
    | .response_body body more_body => on_http_response_body c body more_body
  if c.state = ASGIConnectionState.CLOSED then pure (on_connection_complete c)
  else pure c

/-! ## Concrete inputs used by the claim theorems -/

/-- A fixed RFC 1123 date standing in for `formatdate(time.time())`. -/
def sample_date : List Nat := bs "Sun, 12 Oct 2026 00:00:00 GMT"

/-- A masked client frame whose opcode nibble is 3 (first byte `0x83`),
outside {1, 2, 8, 9, 10}. -/
def invalid_opcode_frame : List Nat := [131, 128, 0, 0, 0, 0]

/-- A masked Binary data frame: FIN=1, opcode 2, masked, 2-byte payload. -/
def binary_frame : List Nat := [130, 130, 1, 2, 3, 4, 10, 20]

/-- A request line with only two space-separated fields. -/
def bad_request_line : List Nat := bs "GET /\r\n"

/-- A masked Text frame whose 7-bit length field is 126, followed by the
2-byte big-endian extended length 2, a masking key and 2 payload bytes. -/
def ext16_frame : List Nat := [129, 254, 0, 2, 1, 2, 3, 4, 5, 6]

/-- A masked Text frame whose 7-bit length field is 127, followed by the
8-byte big-endian extended length 2, a masking key and 2 payload bytes. -/
def ext64_frame : List Nat := [129, 255, 0, 0, 0, 0, 0, 0, 0, 2, 1, 2, 3, 4, 5, 6]

/-- A masked Ping frame (first byte `0x89`): masking key `[1, 2, 3, 4]` and
payload `b"hi"` masked byte-by-byte (`104 XOR 1 = 105`, `105 XOR 2 = 107`). -/
def ping_frame : List Nat := [137, 130, 1, 2, 3, 4, 105, 107]

/-- The upgrade request header block of the tests of the repository. -/
def upgrade_request_headers : List Nat :=
  bs "GET /ws HTTP/1.1\r\nConnection: keep-alive, upgrade\r\nUpgrade: websocket\r\nSec-WebSocket-Key: Y56tJpDd+hCW+vDb0qdekQ==\r\nSec-WebSocket-Version: 13\r\n\r\n"

/-- The parser state after feeding `upgrade_request_headers` to a fresh
parser. -/
def upgrade_parsed : HTTPParser :=
  (freshHTTPParser.parse_headers upgrade_request_headers).toOption.getD freshHTTPParser

/-- An HTTP exchange whose response carries a 16-byte body and no
application-supplied content-length header. -/
def hex_16_flow : Except PyErr ASGIHTTPConnection := do
  let c1 ← ASGIConnection.send initial_http_connection sample_date
    (.response_start 200 [(bs "content-type", bs "text/html")])
  ASGIConnection.send c1 sample_date (.response_body (bs "0123456789abcdef") false)

/-- A complete HTTP exchange: response start, then a final body message. -/
def complete_response_flow : Except PyErr ASGIHTTPConnection := do
  let c1 ← ASGIConnection.send initial_http_connection sample_date (.response_start 200 [])
  ASGIConnection.send c1 sample_date (.response_body (bs "hi") false)

/-- The first completed header whose lowercased name is `b"connection"`
determines the upgrade flag: `some` of whether its lowercased value contains
`b"upgrade"`, or `none` when no connection header has completed. -/
def connection_flag (headers : List (List Nat × List Nat)) : Option Bool :=
  (headers.find? (fun h => pyLower h.1 == bs "connection")).map
    (fun h => pyContains (bs "upgrade") (pyLower h.2))

/-- The upgrade-flag invariant of the spec, as a predicate on parser states:
the flag always equals `connection_flag` of the headers parsed so far; while
the flag is not `yes` the upgrade target is unset; and a recorded upgrade
target is a parsed header named `upgrade` recorded under a `yes` flag. -/
def UpgradeInv (s : HTTPParser) : Prop :=
  s.should_upgrade = connection_flag s.headers ∧
  (s.should_upgrade ≠ some true → s.upgrade_header = none) ∧
  (∀ h, s.upgrade_header = some h →
    pyLower h.1 = bs "upgrade" ∧ h ∈ s.headers ∧ s.should_upgrade = some true)

/-! ## Helper lemmas

`parse_header_byte` neither reads nor writes `raw_headers` or `parsing_data`;
the `*_raw_norm` and `*_pd` lemmas make that precise and lift it through the
byte fold, giving the chunked-feeding composition law. The `*_inv` lemmas
carry the upgrade-flag invariant through the same structure. -/

lemma update_upgrade_state_raw_norm (st hm hv pa qs hd pd ph psp nsp nh uh su)
    (rw0 n v : List Nat) :
    update_upgrade_state ⟨st, hm, hv, pa, qs, hd, pd, ph, psp, nsp, nh, rw0, uh, su⟩ n v =
      { update_upgrade_state ⟨st, hm, hv, pa, qs, hd, pd, ph, psp, nsp, nh, [], uh, su⟩ n v with
        raw_headers := rw0 } := by
  simp only [update_upgrade_state]
  split <;> split_ifs <;> rfl

lemma process_next_header_raw_norm (st hm hv pa qs hd pd ph psp nsp nh uh su)
    (rw0 : List Nat) :
    process_next_header ⟨st, hm, hv, pa, qs, hd, pd, ph, psp, nsp, nh, rw0, uh, su⟩ =
      (process_next_header ⟨st, hm, hv, pa, qs, hd, pd, ph, psp, nsp, nh, [], uh, su⟩).map
        (fun t => { t with raw_headers := rw0 }) := by
  simp only [process_next_header]
  split
  · rfl
  · split
    · rfl
    · rw [update_upgrade_state_raw_norm]
      rfl

lemma except_match_comm (x : Except PyErr HTTPParser) (f g : HTTPParser → HTTPParser)
    (h : ∀ s, g (f s) = f (g s)) :
    (match x.map f with
     | .error e => (.error e : Except PyErr HTTPParser)
     | .ok s => .ok (g s)) =
      (match x with
       | .error e => (.error e : Except PyErr HTTPParser)
       | .ok s => .ok (g s)).map f := by
  cases x
  · rfl
  · show Except.ok (g (f _)) = Except.ok (f (g _))
    rw [h]

lemma parse_header_byte_raw_norm (st hm hv pa qs hd pd ph psp nsp nh uh su)
    (rw0 : List Nat) (b : Nat) :
    parse_header_byte ⟨st, hm, hv, pa, qs, hd, pd, ph, psp, nsp, nh, rw0, uh, su⟩ b =
      (parse_header_byte ⟨st, hm, hv, pa, qs, hd, pd, ph, psp, nsp, nh, [], uh, su⟩ b).map
        (fun t => { t with raw_headers := rw0 }) := by
  simp only [parse_header_byte]
  split_ifs <;>
    first
      | rfl
      | (split <;> rfl)
      | (rw [process_next_header_raw_norm]
         exact except_match_comm _ _ _ (fun s => rfl))

lemma parse_header_byte_setRaw (s : HTTPParser) (r : List Nat) (b : Nat) :
    parse_header_byte { s with raw_headers := r } b =
      (parse_header_byte s b).map (fun t => { t with raw_headers := r }) := by
  cases s with
  | mk st hm hv pa qs hd pd ph psp nsp nh rw0 uh su =>
    dsimp only
    rw [parse_header_byte_raw_norm st hm hv pa qs hd pd ph psp nsp nh uh su r b,
        parse_header_byte_raw_norm st hm hv pa qs hd pd ph psp nsp nh uh su rw0 b]
    cases parse_header_byte ⟨st, hm, hv, pa, qs, hd, pd, ph, psp, nsp, nh, [], uh, su⟩ b <;> rfl

lemma foldlM_parse_setRaw (d : List Nat) : ∀ (s : HTTPParser) (r : List Nat),
    d.foldlM parse_header_byte { s with raw_headers := r } =
      (d.foldlM parse_header_byte s).map (fun t => { t with raw_headers := r }) := by
  induction d with
  | nil => intro s r; rfl
  | cons b d ih =>
    intro s r
    rw [List.foldlM_cons, List.foldlM_cons, parse_header_byte_setRaw]
    cases hp : parse_header_byte s b with
    | error e => rfl
    | ok t =>
      show (d.foldlM parse_header_byte { t with raw_headers := r }) = _
      rw [ih t r]
      rfl

lemma update_upgrade_state_pd (s : HTTPParser) (n v : List Nat) :
    (update_upgrade_state s n v).parsing_data = s.parsing_data := by
  simp only [update_upgrade_state]
  split <;> split_ifs <;> rfl

lemma process_next_header_pd (s t : HTTPParser) (h : process_next_header s = .ok t) :
    t.parsing_data = s.parsing_data := by
  simp only [process_next_header] at h
  split at h
  · cases h; rfl
  · split at h
    · cases h
    · cases h
      show (update_upgrade_state s _ _).parsing_data = s.parsing_data
      exact update_upgrade_state_pd s _ _

lemma parse_header_byte_pd (s : HTTPParser) (b : Nat) (t : HTTPParser)
    (h : parse_header_byte s b = .ok t) : t.parsing_data = s.parsing_data := by
  simp only [parse_header_byte] at h
  split_ifs at h
  all_goals
    first
      | (cases h; rfl)
      | (split at h <;> cases h <;> rfl)
      | (rename_i hcase
         revert h
         cases hp : process_next_header _ with
         | error e => intro h; cases h
         | ok t2 =>
             intro h; cases h; dsimp only
             have h2 := process_next_header_pd _ _ hp
             exact h2)

lemma foldlM_parse_pd (d : List Nat) : ∀ (s t : HTTPParser),
    d.foldlM parse_header_byte s = .ok t → t.parsing_data = s.parsing_data := by
  induction d with
  | nil => intro s t h; cases h; rfl
  | cons b d ih =>
    intro s t h
    rw [List.foldlM_cons] at h
    revert h
    cases hp : parse_header_byte s b with
    | error e => intro h; cases h
    | ok u =>
      intro h
      have h1 := ih u t h
      have h2 := parse_header_byte_pd s b u hp
      rw [h1, h2]

lemma parse_headers_pd (s t : HTTPParser) (d : List Nat)
    (h : HTTPParser.parse_headers s d = .ok t) : t.parsing_data = s.parsing_data := by
  simp only [HTTPParser.parse_headers] at h
  revert h
  cases hm : ({ s with raw_headers := s.raw_headers ++ d } : HTTPParser).parsing_data with
  | none =>
    intro h
    have := foldlM_parse_pd d _ _ h
    simpa [hm] using this
  | some p =>
    intro h
    have := foldlM_parse_pd (p ++ d) _ _ h
    simpa [hm] using this

lemma foldlM_parse_raw_norm (d : List Nat) (st hm hv pa qs hd pd ph psp nsp nh uh su)
    (rw0 : List Nat) :
    d.foldlM parse_header_byte ⟨st, hm, hv, pa, qs, hd, pd, ph, psp, nsp, nh, rw0, uh, su⟩ =
      (d.foldlM parse_header_byte ⟨st, hm, hv, pa, qs, hd, pd, ph, psp, nsp, nh, [], uh, su⟩).map
        (fun t => { t with raw_headers := rw0 }) := by
  have h := foldlM_parse_setRaw d ⟨st, hm, hv, pa, qs, hd, pd, ph, psp, nsp, nh, [], uh, su⟩ rw0
  dsimp only at h
  exact h

lemma parse_headers_append (s : HTTPParser) (hpd : s.parsing_data = none) (a b : List Nat) :
    HTTPParser.parse_headers s (a ++ b) =
      HTTPParser.parse_headers s a >>= (fun t => HTTPParser.parse_headers t b) := by
  obtain ⟨st, hm, hv, pa, qs, hd, pd, ph, psp, nsp, nh, rw0, uh, su⟩ := s
  have hpd2 : pd = none := hpd
  subst hpd2
  simp only [HTTPParser.parse_headers]
  rw [List.foldlM_append,
      foldlM_parse_raw_norm a st hm hv pa qs hd none ph psp nsp nh uh su (rw0 ++ (a ++ b)),
      foldlM_parse_raw_norm a st hm hv pa qs hd none ph psp nsp nh uh su (rw0 ++ a)]
  cases hu : a.foldlM parse_header_byte ⟨st, hm, hv, pa, qs, hd, none, ph, psp, nsp, nh, [], uh, su⟩ with
  | error e => rfl
  | ok u =>
    have hupd : u.parsing_data = none := foldlM_parse_pd a _ _ hu
    obtain ⟨ust, uhm, uhv, upa, uqs, uhd, upd, uph, upsp, unsp, unh, urw, uuh, usu⟩ := u
    have hupd2 : upd = none := hupd
    subst hupd2
    show (b.foldlM parse_header_byte ⟨ust, uhm, uhv, upa, uqs, uhd, none, uph, upsp, unsp, unh,
        rw0 ++ (a ++ b), uuh, usu⟩) =
      HTTPParser.parse_headers ⟨ust, uhm, uhv, upa, uqs, uhd, none, uph, upsp, unsp, unh,
        rw0 ++ a, uuh, usu⟩ b
    simp only [HTTPParser.parse_headers]
    rw [← List.append_assoc]

lemma feed_all_eq_parse_flatten (chunks : List (List Nat)) : ∀ (s : HTTPParser),
    s.parsing_data = none → feed_all s chunks = HTTPParser.parse_headers s chunks.flatten := by
  induction chunks with
  | nil =>
    intro s hpd
    obtain ⟨st, hm, hv, pa, qs, hd, pd, ph, psp, nsp, nh, rw0, uh, su⟩ := s
    have hpd2 : pd = none := hpd
    subst hpd2
    show Except.ok _ = HTTPParser.parse_headers _ []
    simp only [HTTPParser.parse_headers]
    rw [List.append_nil]
    rfl
  | cons c cs ih =>
    intro s hpd
    show (HTTPParser.parse_headers s c >>= fun t => feed_all t cs) = _
    rw [show (c :: cs).flatten = c ++ cs.flatten from rfl, parse_headers_append s hpd c cs.flatten]
    cases hc : HTTPParser.parse_headers s c with
    | error e => rfl
    | ok t =>
      show feed_all t cs = HTTPParser.parse_headers t cs.flatten
      exact ih t (by rw [parse_headers_pd s t c hc, hpd])

lemma connection_flag_append_of_none (hs : List (List Nat × List Nat))
    (nv : List Nat × List Nat)
    (hfind : hs.find? (fun h => pyLower h.1 == bs "connection") = none) :
    connection_flag (hs ++ [nv]) =
      if pyLower nv.1 = bs "connection" then some (pyContains (bs "upgrade") (pyLower nv.2))
      else none := by
  simp only [connection_flag, List.find?_append, hfind, List.find?_cons, List.find?_nil]
  by_cases hc : pyLower nv.1 = bs "connection"
  · simp [hc]
  · have hb : (pyLower nv.1 == bs "connection") = false := by simp [hc]
    rw [hb]
    simp [hc]

lemma connection_flag_append_of_some (hs : List (List Nat × List Nat))
    (nv h0 : List Nat × List Nat)
    (hfind : hs.find? (fun h => pyLower h.1 == bs "connection") = some h0) :
    connection_flag (hs ++ [nv]) = connection_flag hs := by
  simp only [connection_flag, List.find?_append, hfind]
  rfl

lemma upgrade_step_inv (s : HTTPParser) (hInv : UpgradeInv s) (n v : List Nat) :
    UpgradeInv { update_upgrade_state s n v with
      headers := (update_upgrade_state s n v).headers ++ [(n, v)] } := by
  obtain ⟨h1, h2, h3⟩ := hInv
  rcases hsu : s.should_upgrade with _ | u
  · rw [hsu] at h1
    have hfind : s.headers.find? (fun h => pyLower h.1 == bs "connection") = none := by
      rcases hf : s.headers.find? (fun h => pyLower h.1 == bs "connection") with _ | h0
      · exact hf
      · rw [connection_flag, hf] at h1; cases h1
    have huh : s.upgrade_header = none := h2 (by rw [hsu]; exact fun hx => Option.noConfusion hx)
    simp only [update_upgrade_state, hsu]
    by_cases hc : pyLower n = bs "connection"
    · simp only [hc, if_true]
      by_cases hup : pyContains (bs "upgrade") (pyLower v) = true
      · simp only [hup, if_true]
        refine ⟨?_, ?_, ?_⟩
        · show some true = connection_flag (s.headers ++ [(n, v)])
          rw [connection_flag_append_of_none s.headers (n, v) hfind]
          simp [hc, hup]
        · intro _
          exact huh
        · intro h hh
          have hh2 : s.upgrade_header = some h := hh
          rw [huh] at hh2
          cases hh2
      · simp only [hup, if_false]
        refine ⟨?_, ?_, ?_⟩
        · show some false = connection_flag (s.headers ++ [(n, v)])
          rw [connection_flag_append_of_none s.headers (n, v) hfind]
          have hup2 : pyContains (bs "upgrade") (pyLower v) = false := by
            revert hup; cases pyContains (bs "upgrade") (pyLower v) <;> simp
          simp [hc, hup2]
        · intro _
          exact huh
        · intro h hh
          have hh2 : s.upgrade_header = some h := hh
          rw [huh] at hh2
          cases hh2
    · simp only [hc, if_false]
      refine ⟨?_, ?_, ?_⟩
      · show s.should_upgrade = connection_flag (s.headers ++ [(n, v)])
        rw [hsu, connection_flag_append_of_none s.headers (n, v) hfind]
        simp [hc]
      · intro _
        exact huh
      · intro h hh
        have hh2 : s.upgrade_header = some h := hh
        rw [huh] at hh2
        cases hh2
  · rw [hsu] at h1
    obtain ⟨h0, hfind, hval⟩ : ∃ h0, s.headers.find? (fun h => pyLower h.1 == bs "connection") =
        some h0 ∧ u = pyContains (bs "upgrade") (pyLower h0.2) := by
      rcases hf : s.headers.find? (fun h => pyLower h.1 == bs "connection") with _ | h0
      · rw [connection_flag, hf] at h1; cases h1
      · rw [connection_flag, hf] at h1
        exact ⟨h0, hf, Option.some_injective _ h1⟩
    have hflag : (some u : Option Bool) = connection_flag (s.headers ++ [(n, v)]) := by
      rw [connection_flag_append_of_some s.headers (n, v) h0 hfind, ← h1]
    simp only [update_upgrade_state, hsu]
    split
    · rename_i hcond
      refine ⟨?_, ?_, ?_⟩
      · show (some u : Option Bool) = connection_flag (s.headers ++ [(n, v)])
        exact hflag
      · intro hne
        have hne2 : (some u : Option Bool) ≠ some true := hne
        exact absurd (by rw [hcond.1]) hne2
      · intro h hh
        have hh2 : some (n, v) = some h := hh
        cases hh2
        refine ⟨hcond.2.2, List.mem_append_right _ (List.mem_singleton.mpr rfl), ?_⟩
        show (some u : Option Bool) = some true
        rw [hcond.1]
    · rename_i hcond
      refine ⟨?_, ?_, ?_⟩
      · show s.should_upgrade = connection_flag (s.headers ++ [(n, v)])
        rw [hsu]
        exact hflag
      · intro hne
        have hne2 : s.should_upgrade ≠ some true := hne
        exact h2 hne2
      · intro h hh
        have hh2 : s.upgrade_header = some h := hh
        obtain ⟨ha, hb, hcflag⟩ := h3 h hh2
        exact ⟨ha, List.mem_append_left _ hb, hcflag⟩

lemma process_next_header_inv (s t : HTTPParser) (h : process_next_header s = .ok t)
    (hInv : UpgradeInv s) : UpgradeInv t := by
  simp only [process_next_header] at h
  split at h
  · cases h; exact hInv
  · split at h
    · cases h
    · cases h
      exact upgrade_step_inv s hInv _ _

lemma parse_header_byte_inv (s : HTTPParser) (b : Nat) (t : HTTPParser)
    (h : parse_header_byte s b = .ok t) (hInv : UpgradeInv s) : UpgradeInv t := by
  simp only [parse_header_byte] at h
  split_ifs at h
  all_goals
    first
      | (cases h; exact hInv)
      | (split at h <;> cases h <;> exact hInv)
      | (revert h
         cases hp : process_next_header _ with
         | error e => intro h; cases h
         | ok t2 =>
             intro h; cases h
             have h2 := process_next_header_inv _ _ hp hInv
             exact h2)

lemma foldlM_parse_inv (d : List Nat) : ∀ (s t : HTTPParser),
    d.foldlM parse_header_byte s = .ok t → UpgradeInv s → UpgradeInv t := by
  induction d with
  | nil => intro s t h hInv; cases h; exact hInv
  | cons b d ih =>
    intro s t h hInv
    rw [List.foldlM_cons] at h
    revert h
    cases hp : parse_header_byte s b with
    | error e => intro h; cases h
    | ok u =>
      intro h
      exact ih u t h (parse_header_byte_inv s b u hp hInv)

lemma parse_headers_inv (s t : HTTPParser) (d : List Nat)
    (hInv : UpgradeInv s) (h : HTTPParser.parse_headers s d = .ok t) : UpgradeInv t := by
  simp only [HTTPParser.parse_headers] at h
  revert h
  cases hm : ({ s with raw_headers := s.raw_headers ++ d } : HTTPParser).parsing_data with
  | none =>
    intro h
    exact foldlM_parse_inv _ _ t h hInv
  | some p =>
    intro h
    exact foldlM_parse_inv _ _ t h hInv

lemma freshHTTPParser_inv : UpgradeInv freshHTTPParser := by
  refine ⟨rfl, fun _ => rfl, fun h hh => ?_⟩
  cases hh

lemma xor_eq_nat_xor (a k : Nat) (ha : a < 256) (hk : k < 256) :
    Aiobufpro.xor a k = a ^^^ k := by
  have f2 : ∀ x y : Nat, (x ^^^ y) / 2 = x / 2 ^^^ y / 2 := by
    intro x y
    apply Nat.eq_of_testBit_eq
    intro i
    simp [Nat.testBit_div_two, Nat.testBit_xor]
  have f1 : ∀ x y : Nat, (x ^^^ y) % 2 = (x % 2 + y % 2) % 2 := by
    intro x y
    rw [← Nat.and_one_is_mod, Nat.and_xor_distrib_right, Nat.and_one_is_mod, Nat.and_one_is_mod]
    rcases Nat.mod_two_eq_zero_or_one x with h1 | h1 <;>
      rcases Nat.mod_two_eq_zero_or_one y with h2 | h2 <;> rw [h1, h2] <;> rfl
  have step : ∀ x y : Nat, x ^^^ y = 2 * (x / 2 ^^^ y / 2) + (x % 2 + y % 2) % 2 := by
    intro x y
    conv_lhs => rw [← Nat.div_add_mod (x ^^^ y) 2]
    rw [f2, f1]
  have hxor : Aiobufpro.xor a k =
      (((((((0 * 2 + (if a / 128 % 2 + k / 128 % 2 = 1 then 1 else 0)) * 2
        + (if a / 64 % 2 + k / 64 % 2 = 1 then 1 else 0)) * 2
        + (if a / 32 % 2 + k / 32 % 2 = 1 then 1 else 0)) * 2
        + (if a / 16 % 2 + k / 16 % 2 = 1 then 1 else 0)) * 2
        + (if a / 8 % 2 + k / 8 % 2 = 1 then 1 else 0)) * 2
        + (if a / 4 % 2 + k / 4 % 2 = 1 then 1 else 0)) * 2
        + (if a / 2 % 2 + k / 2 % 2 = 1 then 1 else 0)) * 2
        + (if a / 1 % 2 + k / 1 % 2 = 1 then 1 else 0) := rfl
  have hb : ∀ x y : Nat, (if x % 2 + y % 2 = 1 then 1 else 0) = (x % 2 + y % 2) % 2 := by
    intro x y
    split <;> omega
  have d2 : ∀ x : Nat, x / 2 / 2 = x / 4 := by intro x; omega
  have d3 : ∀ x : Nat, x / 4 / 2 = x / 8 := by intro x; omega
  have d4 : ∀ x : Nat, x / 8 / 2 = x / 16 := by intro x; omega
  have d5 : ∀ x : Nat, x / 16 / 2 = x / 32 := by intro x; omega
  have d6 : ∀ x : Nat, x / 32 / 2 = x / 64 := by intro x; omega
  have d7 : ∀ x : Nat, x / 64 / 2 = x / 128 := by intro x; omega
  have d8 : ∀ x : Nat, x < 256 → x / 128 / 2 = 0 := by intro x hx; omega
  rw [hxor, step a k, step (a / 2) (k / 2)]
  rw [d2 a, d2 k, step (a / 4) (k / 4), d3 a, d3 k, step (a / 8) (k / 8), d4 a, d4 k,
      step (a / 16) (k / 16), d5 a, d5 k, step (a / 32) (k / 32), d6 a, d6 k,
      step (a / 64) (k / 64), d7 a, d7 k, step (a / 128) (k / 128), d8 a ha, d8 k hk,
      Nat.xor_self]
  simp only [hb, Nat.div_one]
  ring

lemma getD_lt_256 (l : List Nat) (i : Nat) (h : ∀ b ∈ l, b < 256) : l.getD i 0 < 256 := by
  rw [List.getD_eq_getElem?_getD]
  rcases hl : l[i]? with _ | b
  · simp
  · simp only [Option.getD_some]
    exact h b (List.getElem?_mem hl)

lemma unmask_payload_getD (data key : List Nat) (n i : Nat) (hi : i < n)
    (hdata : ∀ b ∈ data, b < 256) (hkey : ∀ b ∈ key, b < 256) :
    (unmask_payload data key n).getD i 0 = data.getD i 0 ^^^ key.getD (i % 4) 0 := by
  have hv : (unmask_payload data key n).getD i 0 =
      Aiobufpro.xor (data.getD i 0) (key.getD (i % 4) 0) := by
    simp only [unmask_payload, List.getD_eq_getElem?_getD, List.getElem?_map,
      List.getElem?_range hi]
    rfl
  rw [hv, List.getD_eq_getElem?_getD, List.getD_eq_getElem?_getD]
  exact xor_eq_nat_xor _ _
    (by rw [← List.getD_eq_getElem?_getD]; exact getD_lt_256 data i hdata)
    (by rw [← List.getD_eq_getElem?_getD]; exact getD_lt_256 key (i % 4) hkey)

lemma response_start_header_skip (c : ASGIHTTPConnection) (hv : List Nat × List Nat)
    (hne : hv.1 ≠ bs "content-length") :
    response_start_header c hv = .ok { c with
      keep_alive := if hv.1 = bs "connection" ∧ hv.2 = bs "close" then false else c.keep_alive,
      content := c.content ++ [hv.1 ++ bs ": " ++ hv.2 ++ bs "\r\n"] } := by
  simp only [response_start_header, hne, if_false]
  by_cases hconn : hv.1 = bs "connection" ∧ hv.2 = bs "close"
  · simp only [hconn, if_true]
    rfl
  · simp only [hconn, if_false]
    rfl

lemma response_start_fold (headers : List (List Nat × List Nat))
    (hcl : ∀ hv ∈ headers, hv.1 ≠ bs "content-length") :
    ∀ c : ASGIHTTPConnection, ∃ ka : Bool,
      headers.foldlM response_start_header c = .ok { c with
        content := c.content ++ headers.map (fun hv => hv.1 ++ bs ": " ++ hv.2 ++ bs "\r\n"),
        keep_alive := ka } := by
  induction headers with
  | nil =>
    intro c
    refine ⟨c.keep_alive, ?_⟩
    simp only [List.map_nil, List.append_nil, List.foldlM_nil]
    rfl
  | cons hv rest ih =>
    intro c
    have hne : hv.1 ≠ bs "content-length" := hcl hv (List.mem_cons_self hv rest)
    have hcl2 : ∀ h2 ∈ rest, h2.1 ≠ bs "content-length" :=
      fun h2 hm => hcl h2 (List.mem_cons_of_mem hv hm)
    rw [List.foldlM_cons, response_start_header_skip c hv hne]
    obtain ⟨ka, hka⟩ := (ih hcl2) { c with
      keep_alive := if hv.1 = bs "connection" ∧ hv.2 = bs "close" then false else c.keep_alive,
      content := c.content ++ [hv.1 ++ bs ": " ++ hv.2 ++ bs "\r\n"] }
    refine ⟨ka, ?_⟩
    show rest.foldlM response_start_header _ = _
    rw [hka]
    simp [List.append_assoc]

/-! ## Claim theorems -/

/-- C1: REFUTED BY THE CODE (code bug). The spec demands that bytes off the
wire only ever produce the named error kinds (ParseError answered with 400,
WebSocketError with an RFC close code). The code instead raises unnamed
Python exceptions on all three inputs the claim singles out: a frame whose
opcode nibble is 3 raises `ValueError` from the `WebSocketOpcode(...)` enum
call; a Binary data frame raises `AttributeError` because the delivery path
evaluates `WebSocketOpcode.BYTES`, an attribute the enum does not define; and
a request line of two fields raises `ValueError` from tuple unpacking — no
`ParseError` class exists in the repository and no 400 response is written. -/
theorem c1_wire_input_unnamed_exceptions :
    WebSocketParser.parse_frame invalid_opcode_frame =
      .error (.valueError "is not a valid WebSocketOpcode") ∧
    WebSocketParser.parse_frame binary_frame =
      .error (.attributeError "type object WebSocketOpcode has no attribute BYTES") ∧
    freshHTTPParser.parse_headers bad_request_line =
      .error (.valueError "request line does not split into three fields") :=
  ⟨rfl, rfl, rfl⟩

/-- C2: CONFIRMED. Feeding any partition of a byte sequence to a fresh
`HTTPParser` chunk by chunk produces exactly the same outcome — the same
final parser state (hence the same `http_method`, `http_version`, `path`,
`query_string`, `headers`, `should_upgrade` and `upgrade_header`), or the
same error — as feeding the concatenation in a single `parse_headers` call. -/
theorem c2_chunked_feeding_equivalence (chunks : List (List Nat)) :
    feed_all freshHTTPParser chunks = freshHTTPParser.parse_headers chunks.flatten :=
  feed_all_eq_parse_flatten chunks freshHTTPParser rfl

/-- C3: CONFIRMED. For byte values the source `xor` helper — despite going
through 8-character bitstrings — computes exactly the bitwise exclusive-or,
and the unmasking comprehension of the frame decoder therefore yields
`unmasked[i] = masked[i] XOR key[i mod 4]` at every payload index. -/
theorem c3_xor_unmasking :
    (∀ a k : Nat, a < 256 → k < 256 → Aiobufpro.xor a k = a ^^^ k) ∧
    (∀ (data key : List Nat) (n i : Nat), i < n →
      (∀ b ∈ data, b < 256) → (∀ b ∈ key, b < 256) →
      (unmask_payload data key n).getD i 0 = data.getD i 0 ^^^ key.getD (i % 4) 0) :=
  ⟨xor_eq_nat_xor, fun data key n i hi hd hk => unmask_payload_getD data key n i hi hd hk⟩

/-- Witness for C3 at concrete bytes: `xor 171 90` is the bitwise XOR `241`,
and unmasking `[10, 20, 30, 40, 50]` under key `[1, 2, 3, 4]` XORs index 2
with key byte 3. -/
theorem c3_xor_unmasking_witness :
    Aiobufpro.xor 171 90 = 171 ^^^ 90 ∧
    (unmask_payload [10, 20, 30, 40, 50] [1, 2, 3, 4] 5).getD 2 0 = 30 ^^^ 3 :=
  ⟨c3_xor_unmasking.1 171 90 (by decide) (by decide),
   c3_xor_unmasking.2 [10, 20, 30, 40, 50] [1, 2, 3, 4] 5 2 (by decide)
     (by decide) (by decide)⟩

/-- C4: REFUTED BY THE CODE (code bug). The claim (and the very comments of the decoder) say a 7-bit length of 126 reads 2 further bytes as a big-endian
u16 and 127 reads 8 bytes as a big-endian u64. The code instead formats the
sliced `bytearray` with `f"{payload_len_data:08b}"`, which raises `TypeError`
(`bytearray.__format__` rejects any format spec), so no extended-length frame
is ever decoded. -/
theorem c4_extended_length_type_error :
    WebSocketParser.parse_frame ext16_frame =
      .error (.typeError "unsupported format string passed to bytearray.__format__") ∧
    WebSocketParser.parse_frame ext64_frame =
      .error (.typeError "unsupported format string passed to bytearray.__format__") :=
  ⟨rfl, rfl⟩

set_option maxRecDepth 100000 in
/-- C5: REFUTED BY THE CODE (code bug). The encoder formats the opcode with
`f"{opcode.value:04}"` — zero-padded decimal, not binary — and then parses
the glued header string with `int(..., 2)`. Consequently Binary (2), Close
(8) and Ping (9) raise `ValueError` (a non-binary digit appears), Pong (10,
decimal "0010") silently encodes first byte `0x82`, whose opcode nibble is 2
(Binary) rather than 0xA, and only Text is correct. The length is packed as
the single byte `bytes([header, payload_len])`: a 200-byte payload emits
length byte 200 (which also sets the MASK bit) instead of `126` plus a
big-endian u16, and payloads over 255 bytes raise `ValueError`; the three-way
RFC 6455 length encoding is never produced. -/
theorem c5_encoder_header_and_length :
    WebSocketParser.get_frame_content (bs "hi") .TEXT = .ok ([129, 2] ++ bs "hi") ∧
    WebSocketParser.get_frame_content [] .BINARY =
      .error (.valueError "invalid literal for int with base 2") ∧
    WebSocketParser.get_frame_content [] .CLOSE =
      .error (.valueError "invalid literal for int with base 2") ∧
    WebSocketParser.get_frame_content [] .PING =
      .error (.valueError "invalid literal for int with base 2") ∧
    (WebSocketParser.get_frame_content [] .PONG = .ok [130, 0] ∧
      130 / 16 = 8 ∧ 130 % 16 = 2) ∧
    WebSocketParser.get_frame_content (List.replicate 200 65) .TEXT =
      .ok ([129, 200] ++ List.replicate 200 65) ∧
    WebSocketParser.get_frame_content (List.replicate 300 0) .TEXT =
      .error (.valueError "bytes must be in range 0 to 255") :=
  ⟨rfl, rfl, rfl, rfl, ⟨rfl, rfl, rfl⟩, rfl, rfl⟩

/-- C6: REFUTED BY THE CODE (code bug). On a decoded Ping the core is
supposed to write back a Pong frame (opcode 0xA, FIN=1, MASK=0) carrying the
same payload. The code calls `get_frame_content` without awaiting it and
hands the coroutine object to `feed_data`, where `len(content)` raises
`TypeError`; and even the intended encoding would fail, because the encoder
raises `ValueError` for opcode 9 (and was passed the Ping opcode, not Pong).
Nothing is written to the transport. -/
theorem c6_ping_response_failure :
    WebSocketParser.parse_frame ping_frame =
      .error (.typeError "object of type coroutine has no len()") ∧
    WebSocketParser.get_frame_content (bs "hi") .PING =
      .error (.valueError "invalid literal for int with base 2") :=
  ⟨rfl, rfl⟩

/-- C7, counterexample: the claim says a 16-byte body yields
`content-length: 16`. The code formats the length with `b"content-length:
%x"`, so the wire bytes contain `content-length: 10` (hexadecimal 16) and do
not contain `content-length: 16`. -/
theorem c7_decimal_content_length_counterexample :
    hex_16_flow.map (fun c => pyContains (bs "content-length: 16") c.transport_writes.flatten) =
      .ok false ∧
    hex_16_flow.map (fun c =>
      pyContains (bs "content-length: 10\r\n\r\n") c.transport_writes.flatten) = .ok true :=
  ⟨rfl, rfl⟩

/-- C7, as amended: for every response started without an application
supplied `content-length` header and finished by a single body message with
`more_body = false`, the transport receives one write consisting of the
server preamble, the application header lines, a `content-length` header
whose value is the LOWERCASE HEXADECIMAL byte length of the body, an empty
line, the body, and a trailing CRLF; the connection ends `CLOSED`. -/
theorem c7_content_length_hex (date : List Nat) (status : Nat)
    (headers : List (List Nat × List Nat)) (body : List Nat)
    (hcl : ∀ hv ∈ headers, hv.1 ≠ bs "content-length") :
    ∃ c, (ASGIConnection.send initial_http_connection date (.response_start status headers) >>=
        fun c1 => ASGIConnection.send c1 date (.response_body body false)) = .ok c ∧
      c.transport_writes = [(get_server_headers date status ++
        headers.map (fun hv => hv.1 ++ bs ": " ++ hv.2 ++ bs "\r\n") ++
        [bs "content-length: " ++ hex_digits body.length ++ bs "\r\n\r\n", body,
         bs "\r\n"]).flatten] ∧
      c.state = .CLOSED := by
  obtain ⟨ka, hka⟩ := response_start_fold headers hcl
    { initial_http_connection with content := get_server_headers date status }
  have h1 : ASGIConnection.send initial_http_connection date (.response_start status headers) =
      .ok ⟨.RESPONSE, [.http_request []], none,
        get_server_headers date status ++
          headers.map (fun hv => hv.1 ++ bs ": " ++ hv.2 ++ bs "\r\n"), ka, []⟩ := by
    show (on_http_response_start initial_http_connection date status headers >>= _) = _
    simp only [on_http_response_start]
    rw [if_neg (show ¬ (initial_http_connection.state ≠ ASGIConnectionState.REQUEST) from
      by decide)]
    rw [hka]
    rfl
  refine ⟨⟨ASGIConnectionState.CLOSED, [AppMessage.http_request []], none,
    ((get_server_headers date status ++
        headers.map (fun hv => hv.1 ++ bs ": " ++ hv.2 ++ bs "\r\n")) ++
      [bs "content-length: " ++ hex_digits body.length ++ bs "\r\n\r\n"]) ++
      [body, bs "\r\n"], ka,
    [(((get_server_headers date status ++
        headers.map (fun hv => hv.1 ++ bs ": " ++ hv.2 ++ bs "\r\n")) ++
      [bs "content-length: " ++ hex_digits body.length ++ bs "\r\n\r\n"]) ++
      [body, bs "\r\n"]).flatten]⟩, ?_, ?_, rfl⟩
  · rw [h1]
    rfl
  · simp [List.append_assoc]


/-- Witness for C7 as amended, at scenario S1 of the spec: status 200, one
`content-type: text/html` header, body `b"<html/>"`. -/
theorem c7_content_length_hex_witness :
    ∃ c, (ASGIConnection.send initial_http_connection sample_date
        (.response_start 200 [(bs "content-type", bs "text/html")]) >>=
        fun c1 => ASGIConnection.send c1 sample_date
          (.response_body (bs "<html/>") false)) = .ok c ∧
      c.transport_writes = [(get_server_headers sample_date 200 ++
        [(bs "content-type", bs "text/html")].map
          (fun hv => hv.1 ++ bs ": " ++ hv.2 ++ bs "\r\n") ++
        [bs "content-length: " ++ hex_digits (bs "<html/>").length ++ bs "\r\n\r\n",
         bs "<html/>", bs "\r\n"]).flatten] ∧
      c.state = .CLOSED :=
  c7_content_length_hex sample_date 200 [(bs "content-type", bs "text/html")]
    (bs "<html/>") (by decide)

/-- C8: REFUTED BY THE CODE (code bug). When the final `http.response.body`
completes the response, `send` sees the `CLOSED` state and calls
`on_connection_complete`, which calls `put_message({"type":
"http.disconnect"})` — but `put_message` returns without enqueuing whenever
the state is `CLOSED`, which it now always is. After a complete exchange the
application queue still holds only the initial `http.request` message, so a
subsequent `receive()` would block forever instead of returning
`http.disconnect`. -/
theorem c8_http_disconnect_dropped :
    complete_response_flow.map (fun c => c.app_queue) = .ok [AppMessage.http_request []] ∧
    complete_response_flow.map (fun c => c.state) = .ok ASGIConnectionState.CLOSED :=
  ⟨rfl, rfl⟩

set_option maxRecDepth 100000 in
/-- C9: CONFIRMED. The accept key is the base64 encoding of the SHA-1 digest
of the stripped `Sec-WebSocket-Key` value concatenated with the fixed GUID,
and the concrete vector of the spec checks out:
`Y56tJpDd+hCW+vDb0qdekQ==` yields `J9R6HjgRj5VpgXEFRYnNh9igw2o=`. -/
theorem c9_accept_key :
    (∀ k : List Nat, get_websocket_accept_key k =
      b64encode (sha1 (pyStrip k ++ WEBSOCKET_ACCEPT_GUID))) ∧
    get_websocket_accept_key (bs "Y56tJpDd+hCW+vDb0qdekQ==") =
      bs "J9R6HjgRj5VpgXEFRYnNh9igw2o=" :=
  ⟨fun _ => rfl, by decide⟩

/-- C10: CONFIRMED. On a fresh parser the upgrade flag and upgrade target
start unset; after any successful `parse_headers` call the flag equals
exactly the containment test `b"upgrade" in value.lower()` of the FIRST
completed header whose lowercased name is `b"connection"` (and stays unset
while no such header has completed), the target is `None` whenever the flag
is not yes, and a recorded target is a parsed header whose lowercased name
is `b"upgrade"`, recorded only under a yes flag. -/
theorem c10_upgrade_flag_invariant :
    freshHTTPParser.should_upgrade = none ∧ freshHTTPParser.upgrade_header = none ∧
    ∀ (data : List Nat) (s : HTTPParser), freshHTTPParser.parse_headers data = .ok s →
      s.should_upgrade = connection_flag s.headers ∧
      (s.should_upgrade ≠ some true → s.upgrade_header = none) ∧
      (∀ h, s.upgrade_header = some h →
        pyLower h.1 = bs "upgrade" ∧ h ∈ s.headers ∧ s.should_upgrade = some true) :=
  ⟨rfl, rfl, fun data s h => parse_headers_inv freshHTTPParser s data freshHTTPParser_inv h⟩

set_option maxRecDepth 100000 in
/-- Witness for C10 at the upgrade request test vector of the repository tests. -/
theorem c10_upgrade_flag_invariant_witness :
    upgrade_parsed.should_upgrade = connection_flag upgrade_parsed.headers ∧
    (upgrade_parsed.should_upgrade ≠ some true → upgrade_parsed.upgrade_header = none) ∧
    (∀ h, upgrade_parsed.upgrade_header = some h →
      pyLower h.1 = bs "upgrade" ∧ h ∈ upgrade_parsed.headers ∧
      upgrade_parsed.should_upgrade = some true) :=
  c10_upgrade_flag_invariant.2.2 upgrade_request_headers upgrade_parsed (by rfl)

end Aiobufpro
